import Mathlib

/-!
Verification of the SmartDemand per-item forecasting pipeline.

This file shallowly embeds the algorithmic core of the repository
(`advanced_models.py`, `anomaly_analyzer.py`, `model_trainer.py`,
`external_factor_detector.py`, `parallel_processor.py`) in Lean 4 and proves
or refutes the specified properties of that code.

Modelling conventions:
* Python floats are modelled by exact arithmetic: `ℚ` wherever the source only
  adds, subtracts, multiplies and divides, and `ℝ` where a square root is taken
  (standard deviations).  `NaN`/missing values are modelled by `Option`.
* Python dicts that are built and consumed in insertion order are modelled by
  association lists `List (String × ℚ)`.
* pandas data frames are modelled by lists of records; a pandas left merge is
  modelled positionally (for each left row, all matching right rows in order,
  or a single all-null row when none matches).
* `int(n * 0.2)` on the row counts that occur here equals `n / 5` (Nat
  division); the float product `n * 0.2` rounds to a value whose floor is
  `⌊n/5⌋` for all list lengths of the magnitude this program handles.
-/

/-! ### Ensemble combiner (`advanced_models.py`, `VolatilityAwareEnsemble`) -/

/-- The `volatility_adjustment` dict built inside `calculate_dynamic_weights`:
per-model multipliers applied to the performance-based base weights. -/
def volatility_adjustment (v : ℚ) : List (String × ℚ) :=
  [("prophet", 1 - v * (3/10)),
   ("xgboost", 1 - v * (2/10)),
   ("lightgbm", 1 + v * (2/10)),
   ("lstm", 1 + v * (3/10))]

/-- One step of the adjustment loop of `calculate_dynamic_weights`: if the
model name has a multiplier in `volatility_adjustment` the base weight is
multiplied by it, otherwise it passes through unchanged. -/
def adjusted_weight (v : ℚ) (model : String) (w : ℚ) : ℚ :=
  match (volatility_adjustment v).lookup model with
  | some m => w * m
  | none => w

/-- The `adjusted_weights` dict of `calculate_dynamic_weights` (the
pre-normalization weights), as a function of the base weights. -/
def adjust_weights (v : ℚ) (base : List (String × ℚ)) : List (String × ℚ) :=
  base.map (fun p => (p.1, adjusted_weight v p.1 p.2))

/-- Embedding of `VolatilityAwareEnsemble.calculate_dynamic_weights`: dynamic ensemble
weights from a volatility score and a model-name → held-out-accuracy mapping.
Follows the source line by line: empty mapping → empty result; zero total
performance → equal weights; otherwise performance-proportional base weights,
per-model volatility adjustment, and renormalization (with a second equal-
weight fallback if the adjusted weights sum to zero). -/
def calculate_dynamic_weights (v : ℚ) (perf : List (String × ℚ)) :
    List (String × ℚ) :=
  if perf = [] then []
  else
    let total := (perf.map Prod.snd).sum
    if total = 0 then
      perf.map (fun p => (p.1, 1 / (perf.length : ℚ)))
    else
      let baseWeights := perf.map (fun p => (p.1, p.2 / total))
      let adjusted := adjust_weights v baseWeights
      let totalW := (adjusted.map Prod.snd).sum
      if totalW = 0 then
        adjusted.map (fun p => (p.1, 1 / (adjusted.length : ℚ)))
      else
        adjusted.map (fun p => (p.1, p.2 / totalW))

/-! Helper lemmas about list sums of mapped pairs. -/

theorem sum_map_div (l : List ℚ) (c : ℚ) :
    (l.map (fun x => x / c)).sum = l.sum / c := by
  induction l with
  | nil => simp
  | cons a t ih => simp [ih, add_div]

theorem snd_map_pairs {α : Type} (l : List (α × ℚ)) (f : α × ℚ → ℚ) :
    ((l.map (fun p => (p.1, f p))).map Prod.snd) = l.map f := by
  rw [List.map_map]; rfl

theorem fst_map_pairs {α : Type} (l : List (α × ℚ)) (f : α × ℚ → ℚ) :
    ((l.map (fun p => (p.1, f p))).map Prod.fst) = l.map Prod.fst := by
  rw [List.map_map]; rfl

/-- C5: for every non-empty performance mapping in which every model's
accuracy equals 0, the ensemble combiner returns exactly equal weights
1/n for each of the n models, regardless of the volatility score. -/
theorem C5_zero_perf_equal_weights (v : ℚ) (perf : List (String × ℚ))
    (hne : perf ≠ []) (hzero : ∀ p ∈ perf, p.2 = 0) :
    calculate_dynamic_weights v perf =
      perf.map (fun p => (p.1, 1 / (perf.length : ℚ))) := by
  have htotal : (perf.map Prod.snd).sum = 0 := by
    apply List.sum_eq_zero
    intro x hx
    rcases List.mem_map.mp hx with ⟨p, hp, rfl⟩
    exact hzero p hp
  unfold calculate_dynamic_weights
  rw [if_neg hne, if_pos htotal]

/-- Witness for C5 at a concrete input: two models with accuracy 0 and
volatility score 7 get weight 1/2 each. -/
theorem C5_zero_perf_equal_weights_witness :
    calculate_dynamic_weights 7 [("prophet", 0), ("lstm", 0)] =
      [("prophet", 1/2), ("lstm", 1/2)] := by
  have h := C5_zero_perf_equal_weights 7 [("prophet", 0), ("lstm", 0)]
    (by decide) (by decide)
  rw [h]
  norm_num

/-- Any multiplier looked up in `volatility_adjustment` is one of the four
fixed affine forms. -/
theorem volatility_adjustment_lookup_cases (v : ℚ) (m : String) (r : ℚ)
    (h : (volatility_adjustment v).lookup m = some r) :
    r = 1 - v * (3/10) ∨ r = 1 - v * (2/10) ∨
    r = 1 + v * (2/10) ∨ r = 1 + v * (3/10) := by
  simp only [volatility_adjustment, List.lookup] at h
  repeat' split at h
  all_goals simp_all

/-- For a volatility score in [0,1] every adjustment multiplier is positive,
so adjusting a positive weight keeps it positive. -/
theorem adjusted_weight_pos (v : ℚ) (m : String) (w : ℚ)
    (hv0 : 0 ≤ v) (hv1 : v ≤ 1) (hw : 0 < w) : 0 < adjusted_weight v m w := by
  unfold adjusted_weight
  cases hcase : (volatility_adjustment v).lookup m with
  | none => exact hw
  | some r =>
    have hr := volatility_adjustment_lookup_cases v m r hcase
    have hrpos : 0 < r := by rcases hr with h | h | h | h <;> rw [h] <;> linarith
    exact mul_pos hw hrpos

/-- C1: for every non-empty model-name → held-out-accuracy mapping with all
accuracies strictly positive, and for every volatility score (a score in
[0,1], the combiner's documented input domain), `calculate_dynamic_weights`
returns one weight per input model, the weights sum to exactly 1, and every
weight is non-negative. -/
theorem C1_weights_sum_one_nonneg (v : ℚ) (perf : List (String × ℚ))
    (hne : perf ≠ []) (hpos : ∀ p ∈ perf, 0 < p.2)
    (hv0 : 0 ≤ v) (hv1 : v ≤ 1) :
    ((calculate_dynamic_weights v perf).map Prod.fst = perf.map Prod.fst) ∧
    ((calculate_dynamic_weights v perf).map Prod.snd).sum = 1 ∧
    (∀ w ∈ calculate_dynamic_weights v perf, 0 ≤ w.2) := by
  have htotal : 0 < (perf.map Prod.snd).sum := by
    apply List.sum_pos
    · intro x hx
      rcases List.mem_map.mp hx with ⟨p, hp, rfl⟩
      exact hpos p hp
    · simpa using hne
  set total := (perf.map Prod.snd).sum with htot
  have hadjpos : ∀ q ∈ adjust_weights v (perf.map (fun p => (p.1, p.2 / total))),
      0 < q.2 := by
    intro q hq
    rcases List.mem_map.mp hq with ⟨b, hb, rfl⟩
    rcases List.mem_map.mp hb with ⟨p, hp, rfl⟩
    exact adjusted_weight_pos v _ _ hv0 hv1 (div_pos (hpos p hp) htotal)
  have hadjne : adjust_weights v (perf.map (fun p => (p.1, p.2 / total))) ≠ [] := by
    simp [adjust_weights, hne]
  have htotW : 0 <
      ((adjust_weights v (perf.map (fun p => (p.1, p.2 / total)))).map Prod.snd).sum := by
    apply List.sum_pos
    · intro x hx
      rcases List.mem_map.mp hx with ⟨q, hq, rfl⟩
      exact hadjpos q hq
    · simpa using hadjne
  set adjusted := adjust_weights v (perf.map (fun p => (p.1, p.2 / total))) with hadj
  set totalW := (adjusted.map Prod.snd).sum with htW
  have hcalc : calculate_dynamic_weights v perf =
      adjusted.map (fun p => (p.1, p.2 / totalW)) := by
    unfold calculate_dynamic_weights
    rw [if_neg hne, if_neg (by exact ne_of_gt htotal),
      if_neg (by exact ne_of_gt htotW)]
  refine ⟨?_, ?_, ?_⟩
  · rw [hcalc, fst_map_pairs]
    have : adjusted.map Prod.fst = perf.map Prod.fst := by
      rw [hadj]
      unfold adjust_weights
      rw [fst_map_pairs, fst_map_pairs]
    simpa using this
  · rw [hcalc, snd_map_pairs]
    have : (adjusted.map (fun p => p.2 / totalW)).sum
        = ((adjusted.map Prod.snd).map (fun x => x / totalW)).sum := by
      rw [List.map_map]; rfl
    rw [this, sum_map_div, ← htW, div_self (ne_of_gt htotW)]
  · intro w hw
    rw [hcalc] at hw
    rcases List.mem_map.mp hw with ⟨q, hq, rfl⟩
    exact le_of_lt (div_pos (hadjpos q hq) htotW)

/-- Witness for C1 at a concrete input: two all-positive accuracies
{prophet: 80, lstm: 20} and volatility score 1/2. -/
theorem C1_weights_sum_one_nonneg_witness :
    ((calculate_dynamic_weights (1/2) [("prophet", 80), ("lstm", 20)]).map
        Prod.fst = [("prophet", (80:ℚ)), ("lstm", 20)].map Prod.fst) ∧
    ((calculate_dynamic_weights (1/2) [("prophet", 80), ("lstm", 20)]).map
        Prod.snd).sum = 1 ∧
    (∀ w ∈ calculate_dynamic_weights (1/2) [("prophet", 80), ("lstm", 20)],
        0 ≤ w.2) :=
  C1_weights_sum_one_nonneg (1/2) [("prophet", 80), ("lstm", 20)]
    (by decide) (by decide) (by norm_num) (by norm_num)

/-- Evaluation of the multiplier lookups for the sequence and decomposition
models. -/
theorem adjusted_weight_lstm (v w : ℚ) :
    adjusted_weight v "lstm" w = w * (1 + v * (3/10)) := rfl

theorem adjusted_weight_prophet (v w : ℚ) :
    adjusted_weight v "prophet" w = w * (1 - v * (3/10)) := rfl

/-- C6 counterexample: with the 'lstm' base weight fixed at 0 (which the code
produces whenever the lstm accuracy is 0 and the total is positive) and
volatility scores 0 < 1, the pre-normalization adjusted weight of 'lstm' is
0 at both scores, so it is not strictly greater at the larger score.  The
claim, which quantifies over all fixed base weights, is therefore false. -/
theorem C6_counterexample :
    (0:ℚ) < 1 ∧
    ¬ (adjusted_weight 1 "lstm" 0 > adjusted_weight 0 "lstm" 0) := by
  constructor
  · norm_num
  · rw [adjusted_weight_lstm, adjusted_weight_lstm]
    norm_num

/-- C6 (amended): holding the base weights fixed and *strictly positive*, for
any two volatility scores v1 < v2 the pre-normalization adjusted weight of the
sequence model ('lstm') is strictly greater at v2, and that of the
decomposition model ('prophet') is strictly smaller at v2. -/
theorem C6_amended_monotone_adjustment (bl bp v1 v2 : ℚ)
    (hbl : 0 < bl) (hbp : 0 < bp) (hv : v1 < v2) :
    adjusted_weight v2 "lstm" bl > adjusted_weight v1 "lstm" bl ∧
    adjusted_weight v2 "prophet" bp < adjusted_weight v1 "prophet" bp := by
  rw [adjusted_weight_lstm, adjusted_weight_lstm,
    adjusted_weight_prophet, adjusted_weight_prophet]
  constructor
  · nlinarith
  · nlinarith

/-- Witness for the amended C6 at base weights 1/2 and scores 0 < 1. -/
theorem C6_amended_monotone_adjustment_witness :
    adjusted_weight 1 "lstm" (1/2) > adjusted_weight 0 "lstm" (1/2) ∧
    adjusted_weight 1 "prophet" (1/2) < adjusted_weight 0 "prophet" (1/2) :=
  C6_amended_monotone_adjustment (1/2) (1/2) 0 1
    (by norm_num) (by norm_num) (by norm_num)

/-! ### Model trainers (`model_trainer.py`, `advanced_models.py`):
holdout splits and minimum-history gates -/

/-- Constant `MIN_DATA_DAYS` from `model_trainer.py`. -/
def MIN_DATA_DAYS : ℕ := 30

/-- The Python slice `l[:-t]` (used as `iloc[:-t]` / `features[:-t]`). -/
def sliceDropLast {α : Type} (l : List α) (t : ℕ) : List α :=
  if t = 0 then [] else l.take (l.length - t)

/-- The Python slice `l[-t:]` (used as `iloc[-t:]` / `features[-t:]`). -/
def sliceLast {α : Type} (l : List α) (t : ℕ) : List α :=
  if t = 0 then l else l.drop (l.length - t)

/-- In `train_prophet_model`: `test_days = min(30, int(len(prophet_data) * 0.2))`. -/
def prophet_test_days (n : ℕ) : ℕ := min 30 (n / 5)

/-- The train/test split of `train_prophet_model`
(`iloc[:-test_days]`, `iloc[-test_days:]`). -/
def prophet_holdout {α : Type} (l : List α) : List α × List α :=
  (sliceDropLast l (prophet_test_days l.length),
   sliceLast l (prophet_test_days l.length))

/-- In `train_xgboost_model`: `test_days = 30` — a fixed constant, not
`min(30, 20% of length)`. -/
def xgb_test_days : ℕ := 30

/-- The train/test split of `train_xgboost_model`. -/
def xgb_holdout {α : Type} (l : List α) : List α × List α :=
  (sliceDropLast l xgb_test_days, sliceLast l xgb_test_days)

/-- In `LightGBMPredictor.train`: `test_size = min(30, int(len(features) * 0.2))`. -/
def lgbm_test_size (n : ℕ) : ℕ := min 30 (n / 5)

/-- The train/test split of `LightGBMPredictor.train`. -/
def lgbm_holdout {α : Type} (l : List α) : List α × List α :=
  (sliceDropLast l (lgbm_test_size l.length),
   sliceLast l (lgbm_test_size l.length))

/-- Embedding of `LSTMPredictor.prepare_sequences`: sliding windows
`(data[i-lookback:i], data[i:i+forecast])` for
`i in range(lookback, len(data) - forecast + 1)`. -/
def prepare_sequences (lookback fcast : ℕ) (data : List ℚ) :
    List (List ℚ × List ℚ) :=
  (List.range' lookback (data.length - fcast + 1 - lookback)).map
    (fun i => ((data.drop (i - lookback)).take lookback,
               (data.drop i).take fcast))

/-- In `LSTMPredictor.train`: `test_size = min(30, int(len(X) * 0.2))` where `X`
is the sequence list. -/
def lstm_test_size (numSeq : ℕ) : ℕ := min 30 (numSeq / 5)

/-- The train/test split of `LSTMPredictor.train`, over the sequence list. -/
def lstm_holdout {α : Type} (x : List α) : List α × List α :=
  (sliceDropLast x (lstm_test_size x.length),
   sliceLast x (lstm_test_size x.length))

/-- A positive trailing slice of size `t ≤ n` really is the most recent `t`
elements, taken in order, and the split is a partition of the list. -/
theorem trailing_slice_spec {α : Type} (l : List α) (t : ℕ)
    (ht0 : 0 < t) (htn : t ≤ l.length) :
    sliceLast l t = l.drop (l.length - t) ∧
    sliceDropLast l t ++ sliceLast l t = l ∧
    (sliceLast l t).length = t := by
  have hne : t ≠ 0 := Nat.pos_iff_ne_zero.mp ht0
  unfold sliceLast sliceDropLast
  rw [if_neg hne, if_neg hne]
  refine ⟨rfl, List.take_append_drop _ l, ?_⟩
  rw [List.length_drop]
  omega

/-- C2 counterexample: the XGBoost trainer, on a 60-row feature matrix (which
passes its 60-row minimum-history gate), evaluates on a trailing window of 30
rows, not the claimed `min(30, 20% of length) = 12` rows. -/
theorem C2_counterexample :
    60 ≤ (List.replicate 60 (0:ℚ)).length ∧
    ((xgb_holdout (List.replicate 60 (0:ℚ))).2).length ≠
      min 30 ((List.replicate 60 (0:ℚ)).length / 5) := by
  refine ⟨by simp, ?_⟩
  have h : ((xgb_holdout (List.replicate 60 (0:ℚ))).2).length = 30 := by
    simp [xgb_holdout, sliceLast, xgb_test_days]
  rw [h]
  simp

/-- C2 (amended): for every series long enough to pass the respective
minimum-history gate, the Prophet and LightGBM trainers hold out exactly the
most recent `min(30, ⌊20% of length⌋)` rows, the LSTM trainer holds out the
most recent `min(30, ⌊20% of the sequence count⌋)` sequences (the sequence
count is `length − 20` at lookback 14 and horizon 7), and the XGBoost trainer
holds out a fixed trailing window of 30 rows; in every case the holdout is a
trailing, non-shuffled slice (train ++ test = input). -/
theorem C2_amended_holdout_windows :
    (∀ l : List ℚ, 30 ≤ l.length →
      (prophet_holdout l).2 = l.drop (l.length - min 30 (l.length / 5)) ∧
      (prophet_holdout l).1 ++ (prophet_holdout l).2 = l ∧
      ((prophet_holdout l).2).length = min 30 (l.length / 5)) ∧
    (∀ l : List ℚ, 60 ≤ l.length →
      (xgb_holdout l).2 = l.drop (l.length - 30) ∧
      (xgb_holdout l).1 ++ (xgb_holdout l).2 = l ∧
      ((xgb_holdout l).2).length = 30) ∧
    (∀ l : List ℚ, 60 ≤ l.length →
      (lgbm_holdout l).2 = l.drop (l.length - min 30 (l.length / 5)) ∧
      (lgbm_holdout l).1 ++ (lgbm_holdout l).2 = l ∧
      ((lgbm_holdout l).2).length = min 30 (l.length / 5)) ∧
    (∀ data : List ℚ, 51 ≤ data.length →
      (prepare_sequences 14 7 data).length = data.length - 20 ∧
      (lstm_holdout (prepare_sequences 14 7 data)).2 =
        (prepare_sequences 14 7 data).drop
          ((prepare_sequences 14 7 data).length -
            min 30 ((prepare_sequences 14 7 data).length / 5)) ∧
      (lstm_holdout (prepare_sequences 14 7 data)).1 ++
        (lstm_holdout (prepare_sequences 14 7 data)).2 =
          prepare_sequences 14 7 data ∧
      ((lstm_holdout (prepare_sequences 14 7 data)).2).length =
          min 30 ((prepare_sequences 14 7 data).length / 5)) := by
  refine ⟨?_, ?_, ?_, ?_⟩
  · intro l hl
    exact trailing_slice_spec l (min 30 (l.length / 5)) (by omega) (by omega)
  · intro l hl
    exact trailing_slice_spec l 30 (by omega) (by omega)
  · intro l hl
    exact trailing_slice_spec l (min 30 (l.length / 5)) (by omega) (by omega)
  · intro data hdata
    have hlen : (prepare_sequences 14 7 data).length = data.length - 20 := by
      simp [prepare_sequences]
      omega
    refine ⟨hlen, ?_⟩
    exact trailing_slice_spec (prepare_sequences 14 7 data)
      (min 30 ((prepare_sequences 14 7 data).length / 5))
      (by rw [hlen]; omega) (by omega)

/-- Witness for the amended C2 at concrete series lengths 30, 60, 60 and 51. -/
theorem C2_amended_holdout_windows_witness :
    ((prophet_holdout (List.replicate 30 (0:ℚ))).2).length =
      min 30 ((List.replicate 30 (0:ℚ)).length / 5) ∧
    ((xgb_holdout (List.replicate 60 (0:ℚ))).2).length = 30 ∧
    ((lgbm_holdout (List.replicate 60 (0:ℚ))).2).length =
      min 30 ((List.replicate 60 (0:ℚ)).length / 5) ∧
    ((lstm_holdout (prepare_sequences 14 7 (List.replicate 51 (0:ℚ)))).2).length =
      min 30 ((prepare_sequences 14 7 (List.replicate 51 (0:ℚ))).length / 5) := by
  refine ⟨?_, ?_, ?_, ?_⟩
  · exact (C2_amended_holdout_windows.1 (List.replicate 30 (0:ℚ)) (by simp)).2.2
  · exact (C2_amended_holdout_windows.2.1 (List.replicate 60 (0:ℚ)) (by simp)).2.2
  · exact (C2_amended_holdout_windows.2.2.1 (List.replicate 60 (0:ℚ)) (by simp)).2.2
  · exact (C2_amended_holdout_windows.2.2.2 (List.replicate 51 (0:ℚ)) (by simp)).2.2.2

/-- The shape of a trainer's short-data ("not trained") return value:
whether the returned dict has a `trained` key and with which value, the
`Accuracy(%)` and `MAE` performance entries when present, and whether a
(non-None) model object is returned. -/
structure TrainResult where
  trainedKey : Option Bool
  accuracy : Option ℚ
  mae : Option ℚ
  modelReturned : Bool
deriving DecidableEq

/-- Short-data return of `train_prophet_model`:
`(None, None, None, {'Accuracy(%)': -1, 'MAE': -1})` — no `trained` key. -/
def prophet_short_data_result : TrainResult :=
  { trainedKey := none, accuracy := some (-1), mae := some (-1),
    modelReturned := false }

/-- Short-data return of `train_xgboost_model`:
`(None, None, {'Accuracy(%)': -1, 'MAE': -1})` — no `trained` key. -/
def xgboost_short_data_result : TrainResult :=
  { trainedKey := none, accuracy := some (-1), mae := some (-1),
    modelReturned := false }

/-- Short-data return of `LSTMPredictor.train`:
`{'trained': False, 'message': ...}` — no accuracy or MAE entries. -/
def lstm_short_data_result : TrainResult :=
  { trainedKey := some false, accuracy := none, mae := none,
    modelReturned := false }

/-- Short-data return of `LightGBMPredictor.train`:
`{'trained': False, 'message': ...}` — no accuracy or MAE entries. -/
def lightgbm_short_data_result : TrainResult :=
  { trainedKey := some false, accuracy := none, mae := none,
    modelReturned := false }

/-- The minimum-history gate of `train_prophet_model`
(`if len(prophet_data) < MIN_DATA_DAYS: return ...`): `some r` is the
immediate (raise-free) gated return, `none` means training proceeds. -/
def train_prophet_gate (n : ℕ) : Option TrainResult :=
  if n < MIN_DATA_DAYS then some prophet_short_data_result else none

/-- The minimum-history gate of `train_xgboost_model`
(`if len(features) < MIN_DATA_DAYS + 30: return ...`). -/
def train_xgboost_gate (n : ℕ) : Option TrainResult :=
  if n < MIN_DATA_DAYS + 30 then some xgboost_short_data_result else none

/-- The minimum-history gate of `LSTMPredictor.train`
(`if len(product_df) < lookback_days + forecast_days + 30: return ...`). -/
def lstm_train_gate (lookback fcast n : ℕ) : Option TrainResult :=
  if n < lookback + fcast + 30 then some lstm_short_data_result else none

/-- The minimum-history gate of `LightGBMPredictor.train`
(`if len(features) < 60: return ...`). -/
def lightgbm_train_gate (n : ℕ) : Option TrainResult :=
  if n < 60 then some lightgbm_short_data_result else none

/-- C3 counterexample: a 10-day series is below the LSTM gate (51 at the
default lookback 14 and horizon 7), and the gated LSTM result carries no
accuracy entry at all — in particular its accuracy is not the claimed −1
(downstream code reading it with `.get(...) or default` sees 0, not −1). -/
theorem C3_counterexample :
    (10:ℕ) < 14 + 7 + 30 ∧
    lstm_train_gate 14 7 10 = some lstm_short_data_result ∧
    lstm_short_data_result.accuracy ≠ some (-1) ∧
    lstm_short_data_result.mae ≠ some (-1) := by
  refine ⟨by norm_num, by decide, by decide, by decide⟩

/-- C3 (amended): every trainer given a series shorter than its configured
minimum returns immediately and without raising; Prophet and XGBoost return
no model together with accuracy = −1 and MAE = −1 (and no `trained` key),
while LSTM and LightGBM return `trained = false` with no accuracy or MAE
entries (and no model). -/
theorem C3_amended_gate_results :
    (∀ n : ℕ, n < MIN_DATA_DAYS →
      train_prophet_gate n = some ⟨none, some (-1), some (-1), false⟩) ∧
    (∀ n : ℕ, n < MIN_DATA_DAYS + 30 →
      train_xgboost_gate n = some ⟨none, some (-1), some (-1), false⟩) ∧
    (∀ lookback fcast n : ℕ, n < lookback + fcast + 30 →
      lstm_train_gate lookback fcast n =
        some ⟨some false, none, none, false⟩) ∧
    (∀ n : ℕ, n < 60 →
      lightgbm_train_gate n = some ⟨some false, none, none, false⟩) := by
  refine ⟨?_, ?_, ?_, ?_⟩
  · intro n hn
    simp [train_prophet_gate, if_pos hn, prophet_short_data_result]
  · intro n hn
    simp [train_xgboost_gate, if_pos hn, xgboost_short_data_result]
  · intro lookback fcast n hn
    simp [lstm_train_gate, if_pos hn, lstm_short_data_result]
  · intro n hn
    simp [lightgbm_train_gate, if_pos hn, lightgbm_short_data_result]

/-- Witness for the amended C3 at concrete lengths 5, 40, 10 and 59. -/
theorem C3_amended_gate_results_witness :
    train_prophet_gate 5 = some ⟨none, some (-1), some (-1), false⟩ ∧
    train_xgboost_gate 40 = some ⟨none, some (-1), some (-1), false⟩ ∧
    lstm_train_gate 14 7 10 = some ⟨some false, none, none, false⟩ ∧
    lightgbm_train_gate 59 = some ⟨some false, none, none, false⟩ :=
  ⟨C3_amended_gate_results.1 5 (by norm_num [MIN_DATA_DAYS]),
   C3_amended_gate_results.2.1 40 (by norm_num [MIN_DATA_DAYS]),
   C3_amended_gate_results.2.2.1 14 7 10 (by norm_num),
   C3_amended_gate_results.2.2.2 59 (by norm_num)⟩

/-! ### Orchestrator column preconditions
(`parallel_processor.py`, `anomaly_analyzer.py`) -/

/-- The batch input as seen by `run_parallel_processing`: the set of column
names of the frame and the item-group keys its data yields. -/
structure RawInput where
  cols : List String
  itemGroups : List String

/-- The explicit required-column check at the top of
`SmartDemandPreprocessor.process` (`anomaly_analyzer.py`):
all of date, item and quantity must be present. -/
def required_columns_ok (cols : List String) : Bool :=
  ["날짜", "품목명", "판매량"].all (fun c => cols.contains c)

/-- The per-item pipeline body of `process_product`, abstracted to its
behaviour on the required-column precondition (everything this claim is
about): a missing quantity column raises a `KeyError` in
`ExternalFactorDetector._analyze_volatility` (step 1); any missing required
column then raises the `ValueError` of `SmartDemandPreprocessor.process`
(step 2); otherwise the body completes and yields a populated result. -/
def process_product_body (cols : List String) : Except String Unit :=
  if ¬ cols.contains "판매량" then Except.error "KeyError: 판매량"
  else if ¬ required_columns_ok cols then
    Except.error "ValueError: required columns missing"
  else Except.ok ()

/-- Embedding of `process_product`: the whole per-item body runs inside
`try: ... except Exception: return product_name, {}` — any raised error is
caught and converted to an empty per-item result (`false` = empty dict,
`true` = populated result). -/
def process_product (cols : List String) : Bool :=
  match process_product_body cols with
  | Except.ok _ => true
  | Except.error _ => false

/-- Embedding of `run_parallel_processing`: the grouping runs outside any
handler, so a missing item column raises and aborts the batch; otherwise
every item group is processed through `process_product` and the batch always
returns one (name, result) pair per item. -/
def run_parallel_processing (inp : RawInput) :
    Except String (List (String × Bool)) :=
  if ¬ inp.cols.contains "품목명" then
    Except.error "KeyError: 품목명 (groupby)"
  else
    Except.ok (inp.itemGroups.map (fun name => (name, process_product inp.cols)))

/-- C4 counterexample: a batch whose table has the item column but lacks the
quantity column (so the required-column precondition fails) does not fail at
pipeline entry — the per-item error is caught and the batch returns an empty
per-item result for its item, exactly the behaviour the claim excludes. -/
theorem C4_counterexample :
    required_columns_ok ["날짜", "품목명"] = false ∧
    run_parallel_processing ⟨["날짜", "품목명"], ["itemA"]⟩ =
      Except.ok [("itemA", false)] := by
  constructor
  · rfl
  · rfl

/-- C4 (amended): only the absence of the item column is fatal for the whole
batch (the grouping step raises before any per-item processing); when the item
column is present but the date or quantity column is missing, the failure is
raised inside each item's pipeline, caught by the per-item handler, and
converted into a per-item empty result for every item, with the batch
completing normally. -/
theorem C4_amended_column_precondition (inp : RawInput) :
    (¬ inp.cols.contains "품목명" = true →
      run_parallel_processing inp = Except.error "KeyError: 품목명 (groupby)") ∧
    (inp.cols.contains "품목명" = true →
      required_columns_ok inp.cols = false →
      run_parallel_processing inp =
        Except.ok (inp.itemGroups.map (fun name => (name, false)))) := by
  constructor
  · intro h
    unfold run_parallel_processing
    rw [if_pos h]
  · intro hitem hreq
    unfold run_parallel_processing
    rw [if_neg (by simp_all)]
    have hbody : process_product inp.cols = false := by
      unfold process_product process_product_body
      by_cases hq : inp.cols.contains "판매량"
      · rw [if_neg (by simp_all), if_pos (by simp [hreq])]
      · rw [if_pos (by simp_all)]
    rw [hbody]

/-- Witness for the amended C4: a one-item batch missing the quantity column
completes with an empty per-item result, and a batch missing the item column
aborts. -/
theorem C4_amended_column_precondition_witness :
    run_parallel_processing ⟨["날짜"], ["itemA"]⟩ =
      Except.error "KeyError: 품목명 (groupby)" ∧
    run_parallel_processing ⟨["날짜", "품목명"], ["itemA", "itemB"]⟩ =
      Except.ok [("itemA", false), ("itemB", false)] :=
  ⟨(C4_amended_column_precondition ⟨["날짜"], ["itemA"]⟩).1 (by decide),
   (C4_amended_column_precondition ⟨["날짜", "품목명"], ["itemA", "itemB"]⟩).2
     (by decide) (by decide)⟩

/-! ### Volatility analysis (`external_factor_detector.py`) -/

/-- Embedding of `np.mean(sales)` (population mean).  The empty-list edge yields 0 here
where NumPy yields NaN; both fail the `> 0` guard below, so
`analyze_volatility_cv` is unaffected. -/
def np_mean (sales : List ℚ) : ℚ := sales.sum / (sales.length : ℚ)

/-- The square of `np.std(sales)`: the population variance (ddof = 0). -/
def np_var (sales : List ℚ) : ℚ :=
  (sales.map (fun x => (x - np_mean sales) ^ 2)).sum / (sales.length : ℚ)

/-- The coefficient of variation computed by
`ExternalFactorDetector._analyze_volatility` and stored as
`volatility_info['cv']`; `process_product` passes exactly this value to the
ensemble combiner as its volatility score:
`cv = np.std(sales) / np.mean(sales) if np.mean(sales) > 0 else 0`. -/
noncomputable def analyze_volatility_cv (sales : List ℚ) : ℝ :=
  if 0 < np_mean sales then
    Real.sqrt ((np_var sales : ℝ)) / ((np_mean sales : ℝ))
  else 0

/-- C9: the volatility score the orchestrator hands to the ensemble combiner
is the raw, unclamped coefficient of variation, and it exceeds 1 on the sales
series [0, 0, 10] (where it equals √2 ≈ 1.414).  This contradicts the
combiner's documented input domain of scores in [0, 1]. -/
theorem C9_volatility_score_exceeds_one :
    1 < analyze_volatility_cv [0, 0, 10] := by
  have hmean : np_mean [0, 0, 10] = 10 / 3 := by
    norm_num [np_mean]
  have hvar : np_var [0, 0, 10] = 200 / 9 := by
    norm_num [np_var, np_mean]
  unfold analyze_volatility_cv
  rw [if_pos (by rw [hmean]; norm_num), hvar, hmean]
  have hden : (0:ℝ) < ((10 / 3 : ℚ) : ℝ) := by push_cast; norm_num
  rw [lt_div_iff₀ hden, one_mul]
  have hcast : ((10 / 3 : ℚ) : ℝ) ^ 2 < ((200 / 9 : ℚ) : ℝ) := by
    push_cast; norm_num
  exact (Real.lt_sqrt (le_of_lt hden)).mpr hcast

/-! ### Anomaly detection (`anomaly_analyzer.py`, `SmartDemandPreprocessor`)

Rows are modelled with numeric date and item identifiers (only equality and
ordering of these matter to the code below), `Option` cells for NaN/absent
values, and exact rationals for quantities.  Z-scores live in `ℝ` because the
sample standard deviation takes a square root. -/

/-- One input row of the raw frame: the three required columns plus the
optional covariates used by the cause-inference rules. -/
structure Row where
  date : ℕ
  item : ℕ
  qty : Option ℚ
  event : Option String
  promo : Option ℚ
  weather : Option String
  temp : Option ℚ
deriving DecidableEq

/-- Bool test of whether the first character list is a prefix of the second
(helper for the Python `in` substring checks). -/
def listStarts : List Char → List Char → Bool
  | [], _ => true
  | _ :: _, [] => false
  | a :: as, b :: bs => a == b && listStarts as bs

/-- Bool test of whether the first character list occurs inside the second. -/
def listHas (n : List Char) : List Char → Bool
  | [] => n.isEmpty
  | c :: cs => listStarts n (c :: cs) || listHas n cs

/-- The Python substring test `needle in hay`. -/
def strHas (needle hay : String) : Bool := listHas needle.toList hay.toList

/-- Non-missing values of a quantity series (pandas statistics skip NaN). -/
def non_null (s : List (Option ℚ)) : List ℚ := s.filterMap id

/-- Embedding of `series.mean()`: skips missing values and is NaN (`none`)
when there is no observation. -/
def series_mean (s : List (Option ℚ)) : Option ℚ :=
  if (non_null s).length = 0 then none
  else some ((non_null s).sum / ((non_null s).length : ℚ))

/-- The square of `series.std()`: the sample variance (pandas default
ddof = 1), skipping missing values; NaN (`none`) with fewer than two
observations. -/
def series_var (s : List (Option ℚ)) : Option ℚ :=
  if (non_null s).length < 2 then none
  else
    let m := (non_null s).sum / ((non_null s).length : ℚ)
    some (((non_null s).map (fun x => (x - m) ^ 2)).sum /
      (((non_null s).length : ℚ) - 1))

/-- Embedding of `series.std()` itself. -/
noncomputable def series_std (s : List (Option ℚ)) : Option ℝ :=
  (series_var s).map (fun v => Real.sqrt (v : ℝ))

/-- Embedding of `SmartDemandPreprocessor._calculate_z_score`.  The source
branches on `std == 0`; since the sample std is the square root of the
non-negative sample variance, `std == 0` holds exactly when the variance is 0
(`series_std_eq_zero_iff` below), and the variance form keeps the branch
decidable.  A NaN std (fewer than two observations) fails `== 0` and lands in
the division branch, where every z-score is NaN (`none`), matching
`(series - mean) / NaN`. -/
noncomputable def calculate_z_score (s : List (Option ℚ)) : List (Option ℝ) :=
  if series_var s = some 0 then s.map (fun _ => some 0)
  else
    match series_mean s, series_var s with
    | some m, some v =>
        s.map (fun x? => x?.map (fun x =>
          ((x : ℝ) - (m : ℝ)) / Real.sqrt (v : ℝ)))
    | _, _ => s.map (fun _ => none)

/-- The anomaly mask of `_detect_anomalies_and_missing`:
`(z_score.abs() > threshold) | (판매량.isna())`; a NaN z-score compares
False against the threshold. -/
noncomputable def anomaly_flag (t : ℝ) (r : Row) (z : Option ℝ) : Bool :=
  (match z with
   | some x => @decide (|x| > t) (Classical.propDecidable _)
   | none => false) || r.qty.isNone

open Classical in
/-- Embedding of `_define_anomaly_type`: missing → 결측, z above the
threshold → 급등, below its negation → 급감, otherwise 정상. -/
noncomputable def define_anomaly_type (t : ℝ) (r : Row) (z : Option ℝ) :
    String :=
  if r.qty.isNone then "결측"
  else
    match z with
    | some x => if x > t then "급등" else if x < -t then "급감" else "정상"
    | none => "정상"

/-- Whether the event cell is a string containing the keyword. -/
def event_has (r : Row) (kw : String) : Bool :=
  match r.event with
  | some e => strHas kw e
  | none => false

/-- Whether the weather cell is a string containing one of the keywords. -/
def weather_has (r : Row) (kws : List String) : Bool :=
  match r.weather with
  | some w => kws.any (fun k => strHas k w)
  | none => false

/-- Embedding of `_infer_reason`: the priority-ordered rule chain attributing
a cause to a flagged row.  The missing check comes first and short-circuits;
then promotion, adverse weather, hot weather (with `row.get('기온', 15) > 25`),
events, and the unexplained-outlier fallback. -/
def infer_reason (r : Row) (atype : String) : String :=
  if atype = "결측" then "품절 또는 집계 누락"
  else if (decide (r.promo = some 1) || event_has r "할인") && atype = "급등" then
    "프로모션 영향"
  else if weather_has r ["비", "눈", "폭우", "폭설"] && atype = "급감" then
    "기상 악화 영향"
  else if weather_has r ["맑음", "화창"] && decide (25 < r.temp.getD 15) &&
      atype = "급등" then
    "더운 날씨 특수"
  else
    match r.event with
    | some e =>
        if e ≠ "없음" then
          if (["명절", "연휴", "월드컵"].any (fun h => strHas h e)) &&
              atype = "급등" then
            "특별 이벤트 특수"
          else "\x27" ++ e ++ "\x27 이벤트 영향"
        else "통계적 이상치 (원인 불명)"
    | none => "통계적 이상치 (원인 불명)"

/-- One row of the anomaly log (the reindexed columns of
`_detect_anomalies_and_missing`). -/
structure LogRow where
  date : ℕ
  item : ℕ
  qty : Option ℚ
  atype : String
  eventInfo : String
  reason : String
  z : Option ℝ

/-- Embedding of `_detect_anomalies_and_missing` for one item group: compute
the z-score column, keep the rows matching the anomaly mask, and record type,
event info, inferred cause and z-score for each. -/
noncomputable def detect_anomalies_and_missing (t : ℝ) (g : List Row) :
    List LogRow :=
  ((g.zip (calculate_z_score (g.map Row.qty))).filter
      (fun p => anomaly_flag t p.1 p.2)).map
    (fun p =>
      ⟨p.1.date, p.1.item, p.1.qty,
       define_anomaly_type t p.1 p.2,
       p.1.event.getD "없음",
       infer_reason p.1 (define_anomaly_type t p.1 p.2),
       p.2⟩)

/-- Item keys of `df.groupby('품목명')` (on the sorted frame the deduped item
column is exactly the ascending key list pandas iterates). -/
def group_keys (l : List Row) : List ℕ := (l.map Row.item).dedup

/-- The group of rows of one item key. -/
def group_of (l : List Row) (k : ℕ) : List Row :=
  l.filter (fun r => r.item == k)

/-- The concatenated anomaly log over all item groups (the
`pd.concat(all_anomalies)` of `process`). -/
noncomputable def build_anomaly_log (t : ℝ) (l : List Row) : List LogRow :=
  (group_keys l).flatMap (fun k => detect_anomalies_and_missing t (group_of l k))

/-- One output row of `process`: the original columns plus the four joined
anomaly columns; `none` models a NaN cell (possible after the left merge,
before the `fillna` step). -/
structure OutRow where
  row : Row
  is_anomaly : Option Bool
  anomaly_type : Option String
  anomaly_reason : Option String
  anomaly_score : Option ℝ

/-- The left merge of `_create_features_from_log` on (date, item): each input
row is paired with every matching log row (pandas left-merge semantics), or
with a single all-NaN feature row when none matches; the log carries
`is_anomaly = True` on every row before the merge. -/
def merge_features (l : List Row) (log : List LogRow) : List OutRow :=
  l.flatMap (fun r =>
    let ms := log.filter (fun a => a.date == r.date && a.item == r.item)
    if ms.isEmpty then [⟨r, none, none, none, none⟩]
    else ms.map (fun a => ⟨r, some true, some a.atype, some a.reason, a.z⟩))

/-- The four `fillna` calls at the end of `_create_features_from_log`. -/
def fill_defaults (o : OutRow) : OutRow :=
  ⟨o.row, some (o.is_anomaly.getD false), some (o.anomaly_type.getD "정상"),
   some (o.anomaly_reason.getD "정상"), some (o.anomaly_score.getD 0)⟩

/-- Embedding of `_create_features_from_log`: empty log → constant default
columns; otherwise left-merge the log and fill the NaN cells. -/
noncomputable def create_features_from_log (l : List Row) (log : List LogRow) :
    List OutRow :=
  if log.isEmpty then
    l.map (fun r => ⟨r, some false, some "정상", some "정상", some 0⟩)
  else (merge_features l log).map fill_defaults

/-- Sort key of `df.sort_values(by=['품목명', '날짜'])`. -/
def row_le (r s : Row) : Bool :=
  r.item < s.item || (r.item == s.item && r.date ≤ s.date)

/-- Insertion step of the sort; the claims below only use that sorting
permutes the rows. -/
def insert_sorted (r : Row) : List Row → List Row
  | [] => [r]
  | s :: rest => if row_le r s then r :: s :: rest else s :: insert_sorted r rest

/-- Insertion sort of the rows by (item, date). -/
def sort_rows : List Row → List Row
  | [] => []
  | r :: rest => insert_sorted r (sort_rows rest)

/-- Embedding of `SmartDemandPreprocessor.process` once the required-column
check has passed: sort by (item, date), build the per-item anomaly log, and
join it back onto the rows.  Returns (augmented rows, anomaly log). -/
noncomputable def process (t : ℝ) (l : List Row) :
    List OutRow × List LogRow :=
  let sorted := sort_rows l
  let log := build_anomaly_log t sorted
  (create_features_from_log sorted log, log)

/-- Sorting the rows is a permutation of the input. -/
theorem insert_sorted_perm (r : Row) (l : List Row) :
    (insert_sorted r l).Perm (r :: l) := by
  induction l with
  | nil => simp [insert_sorted]
  | cons s rest ih =>
    unfold insert_sorted
    by_cases h : row_le r s = true
    · rw [if_pos h]
    · rw [if_neg h]
      exact (List.Perm.cons s ih).trans (List.Perm.swap r s rest)

theorem sort_rows_perm (l : List Row) : (sort_rows l).Perm l := by
  induction l with
  | nil => simp [sort_rows]
  | cons r rest ih =>
    unfold sort_rows
    exact (insert_sorted_perm r (sort_rows rest)).trans (List.Perm.cons r ih)

/-- The sample variance is non-negative whenever it is defined. -/
theorem series_var_nonneg (s : List (Option ℚ)) (v : ℚ)
    (h : series_var s = some v) : 0 ≤ v := by
  unfold series_var at h
  by_cases hlen : (non_null s).length < 2
  · rw [if_pos hlen] at h; cases h
  · rw [if_neg hlen] at h
    have hv := Option.some.inj h
    subst hv
    apply div_nonneg
    · apply List.sum_nonneg
      intro x hx
      rcases List.mem_map.mp hx with ⟨y, _, rfl⟩
      exact sq_nonneg _
    · have : 2 ≤ (non_null s).length := Nat.le_of_not_lt hlen
      have : (2:ℚ) ≤ ((non_null s).length : ℚ) := by exact_mod_cast this
      linarith

/-- Bridge between the source's `std == 0` test and the variance form used in
`calculate_z_score`. -/
theorem series_std_eq_zero_iff (s : List (Option ℚ)) :
    series_std s = some 0 ↔ series_var s = some 0 := by
  unfold series_std
  cases hv : series_var s with
  | none => simp
  | some v =>
    constructor
    · intro h
      have h' : Real.sqrt ((v : ℝ)) = 0 := by simpa using h
      have hle : (v : ℝ) ≤ 0 := Real.sqrt_eq_zero'.mp h'
      have hge : 0 ≤ v := series_var_nonneg s v hv
      have hv0 : v = 0 := le_antisymm (by exact_mod_cast hle) hge
      simp [hv0]
    · intro h
      have hv0 : v = 0 := by simpa using h
      simp [hv0, Real.sqrt_zero]

/-- In every branch, `calculate_z_score` maps one function over the series,
and that function sends a missing quantity to a NaN or zero z-score. -/
theorem calculate_z_score_shape (s : List (Option ℚ)) :
    ∃ f : Option ℚ → Option ℝ, calculate_z_score s = s.map f ∧
      (f none = none ∨ f none = some 0) := by
  unfold calculate_z_score
  by_cases h0 : series_var s = some 0
  · exact ⟨fun _ => some 0, by rw [if_pos h0], Or.inr rfl⟩
  · rw [if_neg h0]
    cases hm : series_mean s with
    | none => exact ⟨fun _ => none, rfl, Or.inl rfl⟩
    | some m =>
      cases hv : series_var s with
      | none => exact ⟨fun _ => none, rfl, Or.inl rfl⟩
      | some v =>
        refine ⟨fun x? => x?.map (fun x =>
          ((x : ℝ) - (m : ℝ)) / Real.sqrt (v : ℝ)), rfl, Or.inl rfl⟩

/-- Members of `l.zip (l.map g)` pair an element with its own image. -/
theorem zip_map_snd {α β : Type} (l : List α) (g : α → β)
    (p : α × β) (hp : p ∈ l.zip (l.map g)) : p.2 = g p.1 ∧ p.1 ∈ l := by
  induction l with
  | nil => cases hp
  | cons a rest ih =>
    rcases hp with _ | hp'
    · exact ⟨rfl, List.mem_cons_self a rest⟩
    · rcases ih (by assumption) with ⟨h1, h2⟩
      exact ⟨h1, List.mem_cons_of_mem a h2⟩

/-- Every element appears paired with its image in `l.zip (l.map g)`. -/
theorem zip_map_mem {α β : Type} (l : List α) (g : α → β)
    (r : α) (hr : r ∈ l) : (r, g r) ∈ l.zip (l.map g) := by
  induction l with
  | nil => cases hr
  | cons a rest ih =>
    rcases List.mem_cons.mp hr with rfl | h
    · exact List.mem_cons_self _ _
    · exact List.mem_cons_of_mem _ (ih h)

/-- Every log row of one group's detection originates from a row of that
group, shares its date, item and quantity, and — when that quantity is
missing — carries a NaN or exact-zero z-score. -/
theorem detect_src (t : ℝ) (g : List Row) (a : LogRow)
    (ha : a ∈ detect_anomalies_and_missing t g) :
    ∃ r ∈ g, a.date = r.date ∧ a.item = r.item ∧ a.qty = r.qty ∧
      (r.qty = none → a.z = none ∨ a.z = some 0) := by
  rcases calculate_z_score_shape (g.map Row.qty) with ⟨f, hf, hfnone⟩
  unfold detect_anomalies_and_missing at ha
  rcases List.mem_map.mp ha with ⟨p, hp, rfl⟩
  have hp' := List.mem_filter.mp hp
  have hzip := hp'.1
  rw [hf, List.map_map] at hzip
  have hps := zip_map_snd g (f ∘ Row.qty) p hzip
  refine ⟨p.1, hps.2, rfl, rfl, rfl, ?_⟩
  intro hq
  have hpz : p.2 = f none := by
    rw [hps.1, Function.comp_apply, hq]
  rcases hfnone with h | h
  · left; rw [hpz, h]
  · right; rw [hpz, h]

/-- Lift of `detect_src` to the concatenated log. -/
theorem log_src (t : ℝ) (l : List Row) (a : LogRow)
    (ha : a ∈ build_anomaly_log t l) :
    ∃ r ∈ l, a.date = r.date ∧ a.item = r.item ∧ a.qty = r.qty ∧
      (r.qty = none → a.z = none ∨ a.z = some 0) := by
  unfold build_anomaly_log at ha
  rcases List.mem_flatMap.mp ha with ⟨k, _, hdet⟩
  rcases detect_src t _ a hdet with ⟨r, hr, hrest⟩
  exact ⟨r, (List.mem_filter.mp hr).1, hrest⟩

/-- Every row with a missing quantity contributes a log row with its own
(date, item) key: a missing quantity always satisfies the anomaly mask. -/
theorem missing_in_log (t : ℝ) (l : List Row) (r : Row)
    (hr : r ∈ l) (hq : r.qty = none) :
    ∃ a ∈ build_anomaly_log t l, a.date = r.date ∧ a.item = r.item := by
  rcases calculate_z_score_shape ((group_of l r.item).map Row.qty) with
    ⟨f, hf, _⟩
  have hrg : r ∈ group_of l r.item := by
    unfold group_of
    exact List.mem_filter.mpr ⟨hr, by simp⟩
  have hzip : (r, f r.qty) ∈ (group_of l r.item).zip
      (calculate_z_score ((group_of l r.item).map Row.qty)) := by
    rw [hf, List.map_map]
    exact zip_map_mem _ (f ∘ Row.qty) r hrg
  have hflag : anomaly_flag t r (f r.qty) = true := by
    unfold anomaly_flag
    simp [hq]
  have hmem : (⟨r.date, r.item, r.qty, define_anomaly_type t r (f r.qty),
      r.event.getD "없음", infer_reason r (define_anomaly_type t r (f r.qty)),
      f r.qty⟩ : LogRow) ∈ detect_anomalies_and_missing t (group_of l r.item) := by
    unfold detect_anomalies_and_missing
    exact List.mem_map.mpr ⟨(r, f r.qty), List.mem_filter.mpr ⟨hzip, hflag⟩, rfl⟩
  refine ⟨⟨r.date, r.item, r.qty, define_anomaly_type t r (f r.qty),
      r.event.getD "없음", infer_reason r (define_anomaly_type t r (f r.qty)),
      f r.qty⟩, ?_, rfl, rfl⟩
  unfold build_anomaly_log
  apply List.mem_flatMap.mpr
  refine ⟨r.item, ?_, hmem⟩
  unfold group_keys
  exact List.mem_dedup.mpr (List.mem_map.mpr ⟨r, hr, rfl⟩)

/-- Every merged output row comes from an input row, either unmatched (all
four feature cells NaN) or matched against a log row with the same key. -/
theorem merge_features_src (l : List Row) (log : List LogRow) (o : OutRow)
    (ho : o ∈ merge_features l log) :
    ∃ r ∈ l,
      ((log.filter (fun a => a.date == r.date && a.item == r.item) = [] ∧
        o = ⟨r, none, none, none, none⟩) ∨
       (∃ a ∈ log, a.date = r.date ∧ a.item = r.item ∧
        o = ⟨r, some true, some a.atype, some a.reason, a.z⟩)) := by
  unfold merge_features at ho
  rcases List.mem_flatMap.mp ho with ⟨r, hr, hor⟩
  refine ⟨r, hr, ?_⟩
  by_cases hms : (log.filter
      (fun a => a.date == r.date && a.item == r.item)).isEmpty
  · rw [if_pos hms] at hor
    left
    refine ⟨List.isEmpty_iff.mp hms, ?_⟩
    simpa using hor
  · rw [if_neg hms] at hor
    right
    rcases List.mem_map.mp hor with ⟨a, hams, rfl⟩
    have ha' := List.mem_filter.mp hams
    have hcond := ha'.2
    rw [Bool.and_eq_true, beq_iff_eq, beq_iff_eq] at hcond
    exact ⟨a, ha'.1, hcond.1, hcond.2, rfl⟩

/-- After `create_features_from_log`, none of the four joined anomaly columns
is NaN, in either branch. -/
theorem create_features_all_some (l : List Row) (log : List LogRow)
    (o : OutRow) (ho : o ∈ create_features_from_log l log) :
    o.is_anomaly.isSome ∧ o.anomaly_type.isSome ∧
    o.anomaly_reason.isSome ∧ o.anomaly_score.isSome := by
  unfold create_features_from_log at ho
  by_cases hlog : log.isEmpty
  · rw [if_pos hlog] at ho
    rcases List.mem_map.mp ho with ⟨r, _, rfl⟩
    exact ⟨rfl, rfl, rfl, rfl⟩
  · rw [if_neg hlog] at ho
    rcases List.mem_map.mp ho with ⟨o', _, rfl⟩
    exact ⟨rfl, rfl, rfl, rfl⟩

/-- C7: when an item's quantity series has zero (sample) standard deviation,
`calculate_z_score` assigns an exact-zero score to every row, and every row
the detector flags for that item has a missing quantity — no row is flagged
on z-score grounds (the threshold is non-negative; the default is 2.5). -/
theorem C7_zero_std_no_zscore_flags (t : ℝ) (g : List Row)
    (ht : 0 ≤ t) (h : series_std (g.map Row.qty) = some 0) :
    calculate_z_score (g.map Row.qty) =
      (g.map Row.qty).map (fun _ => some 0) ∧
    ∀ a ∈ detect_anomalies_and_missing t g, a.qty = none := by
  have hv : series_var (g.map Row.qty) = some 0 :=
    (series_std_eq_zero_iff _).mp h
  have hz : calculate_z_score (g.map Row.qty) =
      (g.map Row.qty).map (fun _ => some 0) := by
    unfold calculate_z_score
    rw [if_pos hv]
  refine ⟨hz, ?_⟩
  intro a ha
  unfold detect_anomalies_and_missing at ha
  rcases List.mem_map.mp ha with ⟨p, hp, rfl⟩
  have hp' := List.mem_filter.mp hp
  have hzip := hp'.1
  rw [hz, List.map_map] at hzip
  have hps := zip_map_snd g ((fun _ => some (0:ℝ)) ∘ Row.qty) p hzip
  have hpz : p.2 = some (0:ℝ) := hps.1
  have hflag := hp'.2
  unfold anomaly_flag at hflag
  rw [hpz] at hflag
  have h0 : ¬ (|(0:ℝ)| > t) := by
    rw [abs_zero]
    exact not_lt.mpr ht
  simp only [h0, decide_eq_true_eq, Bool.or_eq_true] at hflag
  rcases hflag with hbad | hgood
  · exact hbad.elim
  · show p.1.qty = none
    exact Option.isNone_iff_eq_none.mp hgood

/-- Witness for C7: a constant series (5, 5) with one missing value has
sample standard deviation 0. -/
theorem C7_zero_std_no_zscore_flags_witness :
    (calculate_z_score
        (([⟨0, 0, some 5, none, none, none, none⟩,
           ⟨1, 0, some 5, none, none, none, none⟩,
           ⟨2, 0, none, none, none, none, none⟩] : List Row).map Row.qty) =
      (([⟨0, 0, some 5, none, none, none, none⟩,
         ⟨1, 0, some 5, none, none, none, none⟩,
         ⟨2, 0, none, none, none, none, none⟩] : List Row).map Row.qty).map
        (fun _ => some 0)) ∧
    ∀ a ∈ detect_anomalies_and_missing (5/2)
        [⟨0, 0, some 5, none, none, none, none⟩,
         ⟨1, 0, some 5, none, none, none, none⟩,
         ⟨2, 0, none, none, none, none, none⟩], a.qty = none := by
  apply C7_zero_std_no_zscore_flags (5/2)
  · norm_num
  · show series_std [some (5:ℚ), some 5, none] = some 0
    have hnn : non_null [some (5:ℚ), some 5, none] = [5, 5] := rfl
    have hv : series_var [some (5:ℚ), some 5, none] = some 0 := by
      unfold series_var
      rw [hnn]
      norm_num
    unfold series_std
    rw [hv]
    simp [Real.sqrt_zero]

/-- C8: every anomaly-log row whose kind is 결측 (missing quantity) gets the
fixed stock-out-or-aggregation-gap cause, whatever the covariate values: the
missing check is the first rule of `infer_reason` and short-circuits all
other cause rules. -/
theorem C8_missing_rows_fixed_cause (t : ℝ) (l : List Row) (a : LogRow)
    (ha : a ∈ (process t l).2) (hk : a.atype = "결측") :
    a.reason = "품절 또는 집계 누락" := by
  have ha' : a ∈ build_anomaly_log t (sort_rows l) := ha
  unfold build_anomaly_log at ha'
  rcases List.mem_flatMap.mp ha' with ⟨k, _, hdet⟩
  unfold detect_anomalies_and_missing at hdet
  rcases List.mem_map.mp hdet with ⟨p, _, rfl⟩
  have hk' : define_anomaly_type t p.1 p.2 = "결측" := hk
  show infer_reason p.1 (define_anomaly_type t p.1 p.2) = "품절 또는 집계 누락"
  rw [hk']
  simp [infer_reason]

/-- Witness for C8: a single-item frame whose one row has a missing quantity
yields a 결측 log row, whose cause is the fixed stock-out cause. -/
theorem C8_missing_rows_fixed_cause_witness :
    (⟨0, 0, none, "결측", "없음", "품절 또는 집계 누락", none⟩ : LogRow) ∈
      (process (5/2) [⟨0, 0, none, none, none, none, none⟩]).2 ∧
    (⟨0, 0, none, "결측", "없음", "품절 또는 집계 누락", none⟩ : LogRow).reason =
      "품절 또는 집계 누락" := by
  have hmem : (⟨0, 0, none, "결측", "없음", "품절 또는 집계 누락", none⟩ : LogRow) ∈
      (process (5/2) [⟨0, 0, none, none, none, none, none⟩]).2 := by
    show (⟨0, 0, none, "결측", "없음", "품절 또는 집계 누락", none⟩ : LogRow) ∈
      [(⟨0, 0, none, "결측", "없음", "품절 또는 집계 누락", none⟩ : LogRow)]
    exact List.mem_singleton.mpr rfl
  exact ⟨hmem, C8_missing_rows_fixed_cause (5/2) _ _ hmem rfl⟩

/-- C10: under the data-model invariant that (date, item) keys are unique
within the table, the augmented frame returned by `process` has no NaN in any
of the four joined anomaly columns, and every row whose quantity is missing
comes out with `is_anomaly = True` and `anomaly_score` exactly 0.0 (its
z-score is NaN — or exact zero in the zero-variance branch — and the
post-join fill maps both to 0.0). -/
theorem C10_no_nulls_missing_rows_zero_score (t : ℝ) (l : List Row)
    (hkeys : (l.map (fun r => (r.date, r.item))).Nodup) :
    (∀ o ∈ (process t l).1, o.is_anomaly.isSome ∧ o.anomaly_type.isSome ∧
      o.anomaly_reason.isSome ∧ o.anomaly_score.isSome) ∧
    (∀ o ∈ (process t l).1, o.row.qty = none →
      o.is_anomaly = some true ∧ o.anomaly_score = some 0) := by
  have hsorted := sort_rows_perm l
  have hkeys' : ((sort_rows l).map (fun r => (r.date, r.item))).Nodup :=
    ((hsorted.map (fun r => (r.date, r.item))).nodup_iff).mpr hkeys
  constructor
  · intro o ho
    exact create_features_all_some (sort_rows l)
      (build_anomaly_log t (sort_rows l)) o ho
  · intro o ho hq
    have ho' : o ∈ create_features_from_log (sort_rows l)
        (build_anomaly_log t (sort_rows l)) := ho
    unfold create_features_from_log at ho'
    by_cases hlog : (build_anomaly_log t (sort_rows l)).isEmpty
    · exfalso
      rw [if_pos hlog] at ho'
      rcases List.mem_map.mp ho' with ⟨r, hr, rfl⟩
      rcases missing_in_log t (sort_rows l) r hr hq with ⟨a, halog, _, _⟩
      rw [List.isEmpty_iff.mp hlog] at halog
      cases halog
    · rw [if_neg hlog] at ho'
      rcases List.mem_map.mp ho' with ⟨o', hom, rfl⟩
      rcases merge_features_src (sort_rows l) (build_anomaly_log t (sort_rows l))
        o' hom with ⟨r, hr, hcase⟩
      rcases hcase with ⟨hms, rfl⟩ | ⟨a, halog, hdate, hitem, rfl⟩
      · exfalso
        have hrq : r.qty = none := hq
        rcases missing_in_log t (sort_rows l) r hr hrq with ⟨a, halog, had, hai⟩
        have hmemfil : a ∈ (build_anomaly_log t (sort_rows l)).filter
            (fun a => a.date == r.date && a.item == r.item) :=
          List.mem_filter.mpr ⟨halog, by simp [had, hai]⟩
        rw [hms] at hmemfil
        cases hmemfil
      · have hrq : r.qty = none := hq
        rcases log_src t (sort_rows l) a halog with ⟨s, hs, had, hai, haq, hz⟩
        have hsr : s = r := by
          apply List.inj_on_of_nodup_map hkeys' hs hr
          rw [← had, ← hai, hdate, hitem]
        have hsq : s.qty = none := by rw [hsr]; exact hrq
        rcases hz hsq with hzn | hz0
        · exact ⟨rfl, by simp [fill_defaults, hzn]⟩
        · exact ⟨rfl, by simp [fill_defaults, hz0]⟩

/-- Witness for C10: a two-row single-item frame with distinct dates, one row
with a missing quantity. -/
theorem C10_no_nulls_missing_rows_zero_score_witness :
    (∀ o ∈ (process (5/2) [⟨0, 0, some 1, none, none, none, none⟩,
        ⟨1, 0, none, none, none, none, none⟩]).1,
      o.is_anomaly.isSome ∧ o.anomaly_type.isSome ∧
      o.anomaly_reason.isSome ∧ o.anomaly_score.isSome) ∧
    (∀ o ∈ (process (5/2) [⟨0, 0, some 1, none, none, none, none⟩,
        ⟨1, 0, none, none, none, none, none⟩]).1,
      o.row.qty = none →
      o.is_anomaly = some true ∧ o.anomaly_score = some 0) :=
  C10_no_nulls_missing_rows_zero_score (5/2)
    [⟨0, 0, some 1, none, none, none, none⟩,
     ⟨1, 0, none, none, none, none, none⟩] (by decide)
